import Mathlib

/-!
Verification development for the TGV tracker backend.

The embedding models `src/supabase_utils.py` (the aggregation function
`get_avg_delay_by_station`, a pandas groupby-mean-sort-head pipeline) and
`src/main.py` (the `/api/delays` request handler `get_delays`).

Modelling conventions:
* Numeric delay values are exact rationals (`ℚ`); pandas float64 arithmetic
  is modelled exactly.  `NaN` (the result of `pd.to_numeric(errors="coerce")`
  on an unparseable value, and the mean of a group with no numeric values)
  is modelled as `none : Option ℚ`.
* Rational arithmetic is implemented through `Rat.divInt` on numerators and
  denominators so that every definition evaluates inside the kernel; bridge
  lemmas relate these operations to `+` and `/` on `ℚ`.
* A raw table cell is `Cell`: a numeric value, an arbitrary string, or null.
  `to_numeric` models `pd.to_numeric(errors="coerce")` column-wise: numbers
  pass through, strings are parsed as optionally signed decimal literals,
  anything else becomes `NaN` (`none`).
* `DataFrame.groupby` (with the default `sort=True`) is modelled by
  collecting the distinct group keys in ascending lexicographic order
  (`keysOf`) and computing the `NaN`-skipping mean of each group, exactly as
  `groupby(...)["retard_moyen_depart"].mean()` does.
* `DataFrame.sort_values(..., ascending=asc)` separates the rows with a
  numeric key from the `NaN`-keyed rows, sorts the former in the requested
  direction and appends the latter in their prior order
  (`na_position="last"`).  The model's sort is an insertion sort; the
  source's default `kind="quicksort"` leaves the relative order of rows
  with exactly equal keys implementation-defined, so no verified statement
  relies on the model's tie order.
* `DataFrame.head(limit)` is `List.take limit`; `limit` is modelled as `ℕ`
  (the HTTP layer validates `1 ≤ limit ≤ 100`).
* The Supabase client is modelled as `Option (Except String (List Record))`:
  `none` is an uninitialized client, `some (.error e)` a fetch that raises,
  `some (.ok rows)` a successful fetch of the table rows.  The query's
  `.eq("service", "National")` filter is applied to those rows.
* `str.lower()` is modelled on ASCII letters (`str_lower`), which covers
  every order token the API can receive.
* Python dict payloads are modelled by `Response`, a structure with one
  optional field per key that some branch of the source can emit.
-/

/-- A raw value stored in the `retard_moyen_depart` column: a number, an
arbitrary string, or null. -/
inductive Cell where
  | num (q : ℚ)
  | str (s : String)
  | null
deriving DecidableEq

/-- One row fetched from the table, with the three selected columns
`gare_depart`, `retard_moyen_depart`, `service`. -/
structure Record where
  gare_depart : String
  retard_moyen_depart : Cell
  service : String
deriving DecidableEq

/-- One row of the aggregated result (`to_dict("records")` output):
a station and its mean delay (`none` models `NaN`). -/
structure Entry where
  gare_depart : String
  retard_moyen_depart : Option ℚ
deriving DecidableEq

/-- The dict returned by `get_avg_delay_by_station`; each field is present
(`some`) exactly when the corresponding key is in the returned Python dict. -/
structure Response where
  error : Option String := none
  data : Option (List Entry) := none
  message : Option String := none
  count : Option ℕ := none
  table_name : Option String := none
  order : Option String := none
  service_filter : Option String := none
  description : Option String := none
deriving DecidableEq

/-- Kernel-computable addition on `ℚ` (via `Rat.divInt`). -/
def qadd (a b : ℚ) : ℚ := Rat.divInt (a.num * b.den + b.num * a.den) (a.den * b.den)

/-- Kernel-computable division of a `ℚ` by a natural number. -/
def qdivNat (a : ℚ) (n : ℕ) : ℚ := Rat.divInt a.num (a.den * n)

/-- Sum of a list of rationals, via `qadd`. -/
def qsum (l : List ℚ) : ℚ := l.foldr qadd 0

/-- Value of a list of decimal digit characters, `none` if empty or if any
character is not a digit. -/
def parseNat (cs : List Char) : Option ℕ :=
  if cs.isEmpty then none
  else cs.foldl
    (fun acc c =>
      match acc with
      | none => none
      | some n => if c.isDigit then some (n * 10 + (c.toNat - 48)) else none)
    (some 0)

/-- Unsigned decimal literal: digits with an optional fractional part. -/
def parseUnsigned (cs : List Char) : Option ℚ :=
  match cs.splitOn '.' with
  | [w] => (parseNat w).map (fun n => (n : ℚ))
  | [w, f] =>
    match parseNat w, parseNat f with
    | some a, some b => some (Rat.divInt (a * 10 ^ f.length + b) (10 ^ f.length))
    | _, _ => none
  | _ => none

/-- Model of numeric string parsing as used by `pd.to_numeric`: an optionally
signed decimal literal; anything else is unparseable. -/
def parseNumeric (s : String) : Option ℚ :=
  match s.data with
  | [] => none
  | '-' :: rest => (parseUnsigned rest).map (fun q => -q)
  | '+' :: rest => parseUnsigned rest
  | cs => parseUnsigned cs

/-- `pd.to_numeric(x, errors="coerce")` on one cell: numbers pass through,
strings are parsed, null and unparseable strings become `NaN` (`none`). -/
def to_numeric : Cell → Option ℚ
  | Cell.num q => some q
  | Cell.str s => parseNumeric s
  | Cell.null => none

/-- ASCII `str.lower()`. -/
def str_lower (s : String) : String := ⟨s.data.map Char.toLower⟩

/-- Lexicographic order on lists of characters (by code point), as numpy and
pandas order strings. -/
def charListLt : List Char → List Char → Bool
  | [], [] => false
  | [], _ :: _ => true
  | _ :: _, [] => false
  | a :: as, b :: bs => if a < b then true else if b < a then false else charListLt as bs

/-- Lexicographic order on strings. -/
def strLt (a b : String) : Bool := charListLt a.data b.data

/-- Insert a key into a sorted duplicate-free list of keys, keeping it sorted
and duplicate-free. -/
def insertKey (k : String) : List String → List String
  | [] => [k]
  | x :: xs =>
    if k = x then x :: xs
    else if strLt k x then k :: x :: xs
    else x :: insertKey k xs

/-- The distinct group keys of a column, in ascending lexicographic order:
the index produced by `groupby` with its default `sort=True`. -/
def keysOf (l : List (String × Option ℚ)) : List String :=
  l.foldl (fun acc p => insertKey p.1 acc) []

/-- The numeric (non-`NaN`) values of group `k`. -/
def groupVals (l : List (String × Option ℚ)) (k : String) : List ℚ :=
  (l.filter (fun p => p.1 == k)).filterMap Prod.snd

/-- The `NaN`-skipping mean of group `k`, exactly as `SeriesGroupBy.mean`
computes it: the mean of the non-`NaN` members, `NaN` (`none`) if there are
none. -/
def groupMean (l : List (String × Option ℚ)) (k : String) : Option ℚ :=
  match groupVals l k with
  | [] => none
  | vs => some (qdivNat (qsum vs) vs.length)

/-- The two selected columns of the DataFrame after the `to_numeric`
coercion of `retard_moyen_depart`. -/
def coerced (rows : List Record) : List (String × Option ℚ) :=
  rows.map (fun r => (r.gare_depart, to_numeric r.retard_moyen_depart))

/-- `df.groupby("gare_depart")["retard_moyen_depart"].mean().reset_index()`:
one row per distinct station (in sorted key order), carrying the group mean. -/
def groupbyMean (l : List (String × Option ℚ)) : List Entry :=
  (keysOf l).map (fun k => ⟨k, groupMean l k⟩)

/-- Sort key of a row: its mean, with an arbitrary default on the `NaN` rows
(which are never compared — `sort_values` separates them out first). -/
def mkey (e : Entry) : ℚ := e.retard_moyen_depart.getD 0

/-- The comparison `sort_values` sorts with, for each direction. -/
def mrel : Bool → Entry → Entry → Prop
  | true, x, y => mkey x ≤ mkey y
  | false, x, y => mkey y ≤ mkey x

instance (asc : Bool) : DecidableRel (mrel asc) := fun x y =>
  match asc with
  | true => (inferInstance : Decidable (mkey x ≤ mkey y))
  | false => (inferInstance : Decidable (mkey y ≤ mkey x))

/-- `df.sort_values("retard_moyen_depart", ascending=asc)`: the rows with a
numeric key, sorted in the requested direction, followed by the `NaN`-keyed
rows in their prior order (`na_position="last"`).  The source's default
`kind="quicksort"` does not fix the relative order of rows with equal keys;
the model uses a concrete insertion sort, and no verified statement depends
on how it orders ties. -/
def sort_values (asc : Bool) (l : List Entry) : List Entry :=
  let parts := l.partition (fun e => e.retard_moyen_depart.isSome)
  List.insertionSort (mrel asc) parts.1 ++ parts.2

/-- The aggregation pipeline of `get_avg_delay_by_station` on the fetched
(already service-filtered) rows: group, mean, sort, `head(limit)`. -/
def avg_delays (rows : List Record) (ascending : Bool) (limit : ℕ) : List Entry :=
  (sort_values ascending (groupbyMean (coerced rows))).take limit

/-- `ascending = order.lower() == "asc"` (line 98 of `supabase_utils.py`). -/
def ascFlag (order : String) : Bool := str_lower order == "asc"

/-- The Supabase client handle: `none` when not initialized; otherwise the
outcome of the (filtered) fetch — an exception or the table's rows. -/
def ClientModel : Type := Option (Except String (List Record))

/-- `get_avg_delay_by_station(table_name, limit, order)` from
`src/supabase_utils.py` lines 73–124, over the modelled client. -/
def get_avg_delay_by_station (client : ClientModel) (table_name : String)
    (limit : ℕ) (order : String) : Response :=
  match client with
  | none => { error := some "Supabase client not initialized" }
  | some (Except.error e) => { error := some e }
  | some (Except.ok rows) =>
    let data := rows.filter (fun r => r.service == "National")
    if data.isEmpty then
      { data := some [], message := some "No National service data found" }
    else
      let ascending := ascFlag order
      let result_data := avg_delays data ascending limit
      let order_desc := if ascending then "lowest" else "highest"
      { data := some result_data
        count := some result_data.length
        table_name := some table_name
        order := some order
        service_filter := some "National"
        description := some ("Top " ++ toString limit ++
          " National service stations with " ++ order_desc ++ " average delays") }

/-- The validation FastAPI performs on `/api/delays` query parameters, from
the declarations `Query(ge=1, le=100)` and `Literal["asc", "desc"]` in
`src/main.py` lines 66–68; requests failing it are rejected (HTTP 422)
before the handler body runs. -/
def paramsValid (limit : ℤ) (order : String) : Prop :=
  1 ≤ limit ∧ limit ≤ 100 ∧ (order = "asc" ∨ order = "desc")

instance (limit : ℤ) (order : String) : Decidable (paramsValid limit order) := by
  unfold paramsValid
  infer_instance

/-- Default of the `order` query parameter (`src/main.py` line 68). -/
def get_delays_default_order : String := "asc"

/-- Default of the `limit` query parameter (`src/main.py` line 67). -/
def get_delays_default_limit : ℤ := 10

/-- Default of the `table_name` query parameter (`src/main.py` line 66). -/
def get_delays_default_table : String := "tgv-data"

/-- The response envelope built by the `/api/delays` handler
(`src/main.py` lines 83–91).  `execution_time_ms` is wall-clock time and is
not modelled. -/
structure DelaysEnvelope where
  method : String
  table_name : String
  limit : ℤ
  order : String
  description : String
  result : Response
deriving DecidableEq

/-- Outcome of a `/api/delays` request: a framework-level validation
rejection, or the handler's envelope. -/
inductive DelaysResponse where
  | validationError
  | ok (env : DelaysEnvelope)
deriving DecidableEq

/-- The `/api/delays` request handler `get_delays` (`src/main.py` lines
64–91), including the framework's parameter validation. -/
def get_delays (client : ClientModel) (table_name : String) (limit : ℤ)
    (order : String) : DelaysResponse :=
  if paramsValid limit order then
    DelaysResponse.ok
      { method := "pandas"
        table_name := table_name
        limit := limit
        order := order
        description := "Top " ++ toString limit ++ " " ++
          (if order = "asc" then "best (lowest delays)" else "worst (highest delays)")
          ++ " stations"
        result := get_avg_delay_by_station client table_name limit.toNat order }
  else DelaysResponse.validationError

/-- The relation satisfied by every (not necessarily adjacent) pair of the
output, in output order: numeric means are sorted in the requested
direction, and a `NaN` mean never precedes a numeric one
(`na_position="last"`). -/
def sortedRel (asc : Bool) (x y : Entry) : Prop :=
  match x.retard_moyen_depart, y.retard_moyen_depart with
  | some a, some b => if asc then a ≤ b else b ≤ a
  | some _, none => True
  | none, none => True
  | none, some _ => False

/-! ### Claim-side formalisations (from the spec's words, for comparison) -/

/-- The claim's per-pair mean comparison with IEEE `NaN` semantics: any
comparison involving `NaN` is false. -/
def nanLE (x y : Option ℚ) : Bool :=
  match x, y with
  | some a, some b => decide (a ≤ b)
  | _, _ => false

/-- `adjacentAll R l` holds when every adjacent pair of `l` satisfies `R`. -/
def adjacentAll (R : Entry → Entry → Bool) : List Entry → Bool
  | [] => true
  | [_] => true
  | x :: y :: t => R x y && adjacentAll R (y :: t)

/-- Claim C3 as stated: every adjacent pair of the output is ordered by mean
delay in the requested direction. -/
abbrev specSortedByMean (asc : Bool) (l : List Entry) : Prop :=
  adjacentAll (fun x y =>
    if asc then nanLE x.retard_moyen_depart y.retard_moyen_depart
    else nanLE y.retard_moyen_depart x.retard_moyen_depart) l = true

/-- Claim C4's "number of distinct valid groups": distinct stations having
at least one record whose delay value parses as numeric. -/
def specValidGroupCount (rows : List Record) : ℕ :=
  ((rows.filter (fun r => r.service == "National" &&
    (to_numeric r.retard_moyen_depart).isSome)).map
      (fun r => r.gare_depart)).toFinset.card

/-! ### The divInt-based arithmetic agrees with rational arithmetic -/

theorem qadd_eq_add (a b : ℚ) : qadd a b = a + b := by
  rw [qadd, Rat.divInt_eq_div]
  have ha : ((a.den : ℚ)) ≠ 0 := by
    exact_mod_cast a.den_nz
  have hb : ((b.den : ℚ)) ≠ 0 := by
    exact_mod_cast b.den_nz
  push_cast
  conv_rhs => rw [← Rat.num_div_den a, ← Rat.num_div_den b]
  rw [div_add_div _ _ ha hb]
  ring

theorem qdivNat_eq_div (a : ℚ) (n : ℕ) : qdivNat a n = a / n := by
  rw [qdivNat, Rat.divInt_eq_div]
  push_cast
  conv_rhs => rw [← Rat.num_div_den a]
  rw [div_div]

theorem qsum_eq_sum : ∀ l : List ℚ, qsum l = l.sum
  | [] => rfl
  | a :: l => by
    rw [qsum, List.foldr_cons, List.sum_cons]
    rw [show List.foldr qadd 0 l = qsum l from rfl, qsum_eq_sum l, qadd_eq_add]

theorem groupMean_eq_mean (l : List (String × Option ℚ)) (k : String)
    (h : groupVals l k ≠ []) :
    groupMean l k = some ((groupVals l k).sum / (groupVals l k).length) := by
  rw [groupMean]
  cases hv : groupVals l k with
  | nil => exact absurd hv h
  | cons a t =>
    show some (qdivNat (qsum (a :: t)) (a :: t).length) =
      some ((a :: t).sum / ((a :: t).length : ℚ))
    rw [qdivNat_eq_div, qsum_eq_sum]

/-! ### Order properties of the lexicographic key order -/

theorem charListLt_irrefl : ∀ as : List Char, charListLt as as = false
  | [] => rfl
  | a :: as => by simp [charListLt, lt_irrefl, charListLt_irrefl as]

theorem charListLt_cons_iff {a b : Char} {as bs : List Char} :
    charListLt (a :: as) (b :: bs) = true ↔
      a < b ∨ (a = b ∧ charListLt as bs = true) := by
  by_cases hab : a < b
  · simp [charListLt, hab]
  · by_cases hba : b < a
    · have hne : a ≠ b := ne_of_gt hba
      simp [charListLt, hab, hba, hne]
    · have heq : a = b := le_antisymm (not_lt.mp hba) (not_lt.mp hab)
      simp [charListLt, hab, hba, heq]

theorem charListLt_trans : ∀ as bs cs : List Char,
    charListLt as bs = true → charListLt bs cs = true → charListLt as cs = true := by
  intro as
  induction as with
  | nil =>
    intro bs cs h1 h2
    cases bs with
    | nil => simp [charListLt] at h1
    | cons b bs =>
      cases cs with
      | nil => simp [charListLt] at h2
      | cons c cs => simp [charListLt]
  | cons a as ih =>
    intro bs cs h1 h2
    cases bs with
    | nil => simp [charListLt] at h1
    | cons b bs =>
      cases cs with
      | nil => simp [charListLt] at h2
      | cons c cs =>
        rw [charListLt_cons_iff] at h1 h2 ⊢
        rcases h1 with h1 | ⟨h1e, h1r⟩
        · rcases h2 with h2 | ⟨h2e, h2r⟩
          · exact Or.inl (lt_trans h1 h2)
          · left
            rw [← h2e]
            exact h1
        · rcases h2 with h2 | ⟨h2e, h2r⟩
          · left
            rw [h1e]
            exact h2
          · exact Or.inr ⟨h1e.trans h2e, ih bs cs h1r h2r⟩

theorem charListLt_eq_of_not : ∀ as bs : List Char,
    charListLt as bs = false → charListLt bs as = false → as = bs := by
  intro as
  induction as with
  | nil =>
    intro bs h1 _
    cases bs with
    | nil => rfl
    | cons b bs => simp [charListLt] at h1
  | cons a as ih =>
    intro bs h1 h2
    cases bs with
    | nil => simp [charListLt] at h2
    | cons b bs =>
      have h1' : ¬ (a < b ∨ (a = b ∧ charListLt as bs = true)) := by
        rw [← charListLt_cons_iff]
        simp [h1]
      have h2' : ¬ (b < a ∨ (b = a ∧ charListLt bs as = true)) := by
        rw [← charListLt_cons_iff]
        simp [h2]
      push_neg at h1' h2'
      have heq : a = b := le_antisymm h2'.1 h1'.1
      have hr1 : charListLt as bs = false := by
        cases hx : charListLt as bs with
        | false => rfl
        | true => exact absurd hx (h1'.2 heq)
      have hr2 : charListLt bs as = false := by
        cases hx : charListLt bs as with
        | false => rfl
        | true => exact absurd hx (h2'.2 heq.symm)
      rw [heq, ih bs hr1 hr2]

theorem strEq_of_data {a b : String} (h : a.data = b.data) : a = b := by
  cases a; cases b; simp_all

theorem strLt_irrefl (a : String) : strLt a a = false := charListLt_irrefl a.data

theorem strLt_trans {a b c : String} (h1 : strLt a b = true) (h2 : strLt b c = true) :
    strLt a c = true := charListLt_trans a.data b.data c.data h1 h2

theorem strLt_ne {a b : String} (h : strLt a b = true) : a ≠ b := by
  intro he
  rw [he, strLt_irrefl] at h
  cases h

theorem strLt_of_not {a b : String} (h1 : strLt a b = false) (h2 : a ≠ b) :
    strLt b a = true := by
  cases hba : strLt b a with
  | true => rfl
  | false => exact absurd (strEq_of_data (charListLt_eq_of_not a.data b.data h1 hba)) h2

/-! ### The sorted distinct key list -/

theorem mem_insertKey (k a : String) : ∀ l : List String,
    a ∈ insertKey k l ↔ a = k ∨ a ∈ l := by
  intro l
  induction l with
  | nil => simp [insertKey]
  | cons x xs ih =>
    simp only [insertKey]
    split_ifs with he hlt
    · subst he
      simp only [List.mem_cons]
      tauto
    · simp only [List.mem_cons]
    · simp only [List.mem_cons, ih]
      tauto

theorem pairwise_insertKey (k : String) : ∀ l : List String,
    l.Pairwise (fun x y => strLt x y = true) →
    (insertKey k l).Pairwise (fun x y => strLt x y = true) := by
  intro l
  induction l with
  | nil => exact fun _ => List.Pairwise.cons (by simp) List.Pairwise.nil
  | cons x xs ih =>
    intro h
    rcases List.pairwise_cons.mp h with ⟨hx, hxs⟩
    simp only [insertKey]
    split_ifs with he hlt
    · exact h
    · refine List.Pairwise.cons ?_ h
      intro b hb
      rcases List.mem_cons.mp hb with hb | hb
      · exact hb ▸ hlt
      · exact strLt_trans hlt (hx b hb)
    · refine List.Pairwise.cons ?_ (ih hxs)
      intro b hb
      rcases (mem_insertKey k b xs).mp hb with hb | hb
      · subst hb
        exact strLt_of_not (by simpa using hlt) he
      · exact hx b hb

theorem keysOf_invariant : ∀ (l : List (String × Option ℚ)) (acc : List String),
    acc.Pairwise (fun x y => strLt x y = true) →
    (List.foldl (fun a p => insertKey p.1 a) acc l).Pairwise (fun x y => strLt x y = true) ∧
    (∀ s, s ∈ List.foldl (fun a p => insertKey p.1 a) acc l ↔
      s ∈ acc ∨ s ∈ l.map Prod.fst)
  | [], acc, h => ⟨h, by simp⟩
  | p :: l, acc, h => by
    have hacc := pairwise_insertKey p.1 acc h
    rcases keysOf_invariant l (insertKey p.1 acc) hacc with ⟨h1, h2⟩
    refine ⟨h1, fun s => ?_⟩
    rw [List.foldl_cons, h2 s, mem_insertKey]
    simp only [List.map_cons, List.mem_cons]
    tauto

theorem keysOf_pairwise (l : List (String × Option ℚ)) :
    (keysOf l).Pairwise (fun x y => strLt x y = true) :=
  (keysOf_invariant l [] List.Pairwise.nil).1

theorem mem_keysOf (l : List (String × Option ℚ)) (s : String) :
    s ∈ keysOf l ↔ s ∈ l.map Prod.fst := by
  rw [keysOf, (keysOf_invariant l [] List.Pairwise.nil).2 s]
  simp

theorem keysOf_nodup (l : List (String × Option ℚ)) : (keysOf l).Nodup :=
  (keysOf_pairwise l).imp (fun h => strLt_ne h)

theorem keysOf_length (l : List (String × Option ℚ)) :
    (keysOf l).length = (l.map Prod.fst).toFinset.card := by
  have hfs : (keysOf l).toFinset = (l.map Prod.fst).toFinset := by
    apply Finset.ext
    intro s
    rw [List.mem_toFinset, List.mem_toFinset, mem_keysOf]
  rw [← hfs, List.toFinset_card_of_nodup (keysOf_nodup l)]

/-! ### The grouped rows -/

theorem groupbyMean_pairwise_key (l : List (String × Option ℚ)) :
    (groupbyMean l).Pairwise (fun x y => strLt x.gare_depart y.gare_depart = true) :=
  List.pairwise_map.mpr (keysOf_pairwise l)

theorem groupbyMean_length (l : List (String × Option ℚ)) :
    (groupbyMean l).length = (l.map Prod.fst).toFinset.card := by
  rw [groupbyMean, List.length_map, keysOf_length]

/-! ### The sort relation -/

theorem mrel_total (asc : Bool) : ∀ x y : Entry, mrel asc x y ∨ mrel asc y x := by
  cases asc
  · exact fun x y => le_total (mkey y) (mkey x)
  · exact fun x y => le_total (mkey x) (mkey y)

theorem mrel_trans (asc : Bool) : ∀ x y z : Entry,
    mrel asc x y → mrel asc y z → mrel asc x z := by
  cases asc
  · exact fun x y z h1 h2 => le_trans h2 h1
  · exact fun x y z h1 h2 => le_trans h1 h2

/-! ### `sort_values` -/

theorem sort_values_eq (asc : Bool) (l : List Entry) :
    sort_values asc l =
      List.insertionSort (mrel asc)
        (l.filter (fun e => e.retard_moyen_depart.isSome)) ++
      l.filter (fun e => !e.retard_moyen_depart.isSome) := by
  simp only [sort_values]
  rw [List.partition_eq_filter_filter]
  rfl

theorem sort_values_perm (asc : Bool) (l : List Entry) :
    List.Perm (sort_values asc l) l := by
  rw [sort_values_eq]
  exact ((List.perm_insertionSort (mrel asc) _).append (List.Perm.refl _)).trans
    (List.filter_append_perm _ l)

theorem sort_values_length (asc : Bool) (l : List Entry) :
    (sort_values asc l).length = l.length :=
  (sort_values_perm asc l).length_eq

theorem mem_sort_values (asc : Bool) (l : List Entry) (e : Entry) :
    e ∈ sort_values asc l ↔ e ∈ l :=
  (sort_values_perm asc l).mem_iff

/-- A row of the sorted numeric block has a numeric mean. -/
theorem retard_some_of_mem_sorted {asc : Bool} {l : List Entry} {e : Entry}
    (he : e ∈ List.insertionSort (mrel asc)
      (l.filter (fun x => x.retard_moyen_depart.isSome))) :
    ∃ a, e.retard_moyen_depart = some a :=
  Option.isSome_iff_exists.mp
    ((List.mem_filter.mp ((List.perm_insertionSort (mrel asc) _).mem_iff.mp he)).2)

/-- A row of the `NaN` block has mean `none`. -/
theorem retard_none_of_mem_nan {l : List Entry} {e : Entry}
    (he : e ∈ l.filter (fun x => !x.retard_moyen_depart.isSome)) :
    e.retard_moyen_depart = none := by
  have h := (List.mem_filter.mp he).2
  cases hv : e.retard_moyen_depart
  · rfl
  · rw [hv] at h
    simp at h

/-! ### The direction-dependent sortedness relation actually delivered -/

theorem sortValues_sorted_pairwise (asc : Bool) (l : List Entry) :
    (sort_values asc l).Pairwise (sortedRel asc) := by
  rw [sort_values_eq, List.pairwise_append]
  refine ⟨?_, ?_, ?_⟩
  · haveI : IsTotal Entry (mrel asc) := ⟨mrel_total asc⟩
    haveI : IsTrans Entry (mrel asc) := ⟨mrel_trans asc⟩
    have hs : (List.insertionSort (mrel asc)
        (l.filter (fun e => e.retard_moyen_depart.isSome))).Pairwise (mrel asc) :=
      List.sorted_insertionSort _ _
    refine hs.imp_of_mem ?_
    intro x y hx hy hr
    obtain ⟨a, ha⟩ := retard_some_of_mem_sorted hx
    obtain ⟨b, hbv⟩ := retard_some_of_mem_sorted hy
    cases asc <;>
      simp only [mrel, mkey, ha, hbv, Option.getD_some] at hr <;>
      simp only [sortedRel, ha, hbv, if_true, if_false] <;>
      exact hr
  · have htriv : (l.filter (fun e => !e.retard_moyen_depart.isSome)).Pairwise
        (fun _ _ => True) := List.pairwise_of_forall (fun _ _ => trivial)
    refine htriv.imp_of_mem ?_
    intro x y hx hy _
    have hxn := retard_none_of_mem_nan hx
    have hyn := retard_none_of_mem_nan hy
    simp [sortedRel, hxn, hyn]
  · intro x hx y hy
    obtain ⟨a, ha⟩ := retard_some_of_mem_sorted hx
    have hyn := retard_none_of_mem_nan hy
    simp [sortedRel, ha, hyn]

/-! ### Reduction lemmas for `get_avg_delay_by_station` and the pipeline -/

theorem get_avg_ok_empty (rows : List Record) (t : String) (l : ℕ) (o : String)
    (h : (rows.filter (fun r => r.service == "National")).isEmpty = true) :
    get_avg_delay_by_station (some (Except.ok rows)) t l o =
      { data := some [], message := some "No National service data found" } := by
  simp only [get_avg_delay_by_station, h, if_true]

theorem get_avg_ok_nonempty (rows : List Record) (t : String) (l : ℕ) (o : String)
    (h : (rows.filter (fun r => r.service == "National")).isEmpty = false) :
    get_avg_delay_by_station (some (Except.ok rows)) t l o =
      { data := some (avg_delays (rows.filter (fun r => r.service == "National"))
          (ascFlag o) l)
        count := some (avg_delays (rows.filter (fun r => r.service == "National"))
          (ascFlag o) l).length
        table_name := some t
        order := some o
        service_filter := some "National"
        description := some ("Top " ++ toString l ++
          " National service stations with " ++
          (if ascFlag o then "lowest" else "highest") ++ " average delays") } := by
  simp only [get_avg_delay_by_station, h, Bool.false_eq_true, if_false]

theorem get_avg_error_none (rows : List Record) (t : String) (l : ℕ) (o : String) :
    (get_avg_delay_by_station (some (Except.ok rows)) t l o).error = none := by
  cases hE : (rows.filter (fun r => r.service == "National")).isEmpty
  · rw [get_avg_ok_nonempty rows t l o hE]
  · rw [get_avg_ok_empty rows t l o hE]

theorem groupVals_cons_none (g k : String) (l : List (String × Option ℚ)) :
    groupVals ((g, none) :: l) k = groupVals l k := by
  by_cases h : g = k
  · simp [groupVals, List.filter_cons, h]
  · simp [groupVals, List.filter_cons, h]

theorem groupMean_cons_none (g k : String) (l : List (String × Option ℚ)) :
    groupMean ((g, none) :: l) k = groupMean l k := by
  rw [groupMean, groupMean, groupVals_cons_none]

theorem groupVals_eq_nil {l : List (String × Option ℚ)} {k : String}
    (h : ∀ p ∈ l, p.1 = k → p.2 = none) : groupVals l k = [] := by
  rw [groupVals, List.filterMap_eq_nil_iff]
  intro p hp
  rcases List.mem_filter.mp hp with ⟨hpl, hpk⟩
  exact h p hpl (by simpa using hpk)

theorem groupMean_eq_none {l : List (String × Option ℚ)} {k : String}
    (h : ∀ p ∈ l, p.1 = k → p.2 = none) : groupMean l k = none := by
  rw [groupMean, groupVals_eq_nil h]

theorem avg_delays_length (rows : List Record) (asc : Bool) (limit : ℕ) :
    (avg_delays rows asc limit).length =
      min limit ((rows.map (fun r => r.gare_depart)).toFinset.card) := by
  rw [avg_delays, List.length_take, sort_values_length, groupbyMean_length]
  congr 1
  rw [coerced, List.map_map]
  rfl

/-! ### C1 -/

/-- C1 fails on the code: a station whose only record has an unparseable
delay value (`"bad"`) is not dropped — it appears in the output with a `NaN`
(`none`) mean. -/
theorem c1_counterexample :
    (get_avg_delay_by_station (some (Except.ok
        [⟨"A", Cell.str "bad", "National"⟩])) "tgv-data" 10 "asc").data =
      some [⟨"A", none⟩] ∧
    "A" ∈ ((get_avg_delay_by_station (some (Except.ok
        [⟨"A", Cell.str "bad", "National"⟩])) "tgv-data" 10 "asc").data.getD
      []).map Entry.gare_depart := by
  decide

/-- C1 amended: a station all of whose (service-filtered) records have
unparseable delay values is kept by the aggregation, appearing in the output
sequence with a `NaN` (`none`) mean; it can be removed only by the
`head(limit)` truncation, so it is present whenever `limit` is at least the
number of distinct stations. -/
theorem c1_amended (rows : List Record) (k t : String) (lim : ℕ) (o : String)
    (hmem : ∃ r ∈ rows.filter (fun r => r.service == "National"),
      r.gare_depart = k)
    (hbad : ∀ r ∈ rows.filter (fun r => r.service == "National"),
      r.gare_depart = k → to_numeric r.retard_moyen_depart = none)
    (hlim : (((rows.filter (fun r => r.service == "National")).map
      (fun r => r.gare_depart)).toFinset.card) ≤ lim) :
    Entry.mk k none ∈
      ((get_avg_delay_by_station (some (Except.ok rows)) t lim o).data.getD []) := by
  have hne : (rows.filter (fun r => r.service == "National")).isEmpty = false := by
    rcases hmem with ⟨r, hr, -⟩
    cases hE : (rows.filter (fun r => r.service == "National")).isEmpty
    · rfl
    · rw [List.isEmpty_iff] at hE
      rw [hE] at hr
      exact absurd hr (List.not_mem_nil r)
  rw [get_avg_ok_nonempty rows t lim o hne]
  simp only [Option.getD_some]
  rw [avg_delays]
  have hlen : (sort_values (ascFlag o)
      (groupbyMean (coerced (rows.filter (fun r => r.service == "National"))))).length
        ≤ lim := by
    rw [sort_values_length, groupbyMean_length, coerced, List.map_map]
    exact hlim
  rw [List.take_of_length_le hlen, mem_sort_values, groupbyMean]
  apply List.mem_map.mpr
  have hmean : groupMean (coerced (rows.filter (fun r => r.service == "National"))) k
      = none := by
    apply groupMean_eq_none
    intro p hp hpk
    simp only [coerced] at hp
    rcases List.mem_map.mp hp with ⟨r', hr', hrp⟩
    subst hrp
    exact hbad r' hr' hpk
  refine ⟨k, ?_, by simp [hmean]⟩
  rw [mem_keysOf, coerced, List.map_map]
  rcases hmem with ⟨r, hr, hrk⟩
  exact List.mem_map.mpr ⟨r, hr, hrk⟩

/-- Witness: instantiates `c1_amended` on a concrete two-station input. -/
theorem c1_witness :
    Entry.mk "A" none ∈
      ((get_avg_delay_by_station (some (Except.ok
        [⟨"A", Cell.str "x", "National"⟩, ⟨"B", Cell.num 5, "National"⟩]))
        "tgv-data" 10 "asc").data.getD []) :=
  c1_amended _ "A" "tgv-data" 10 "asc" (by decide) (by decide) (by decide)

/-! ### C2 -/

/-- C2 fails on the code: with input records for station `"B"` (first seen)
and `"A"` (second seen) both averaging 5, the output lists `"A"` before
`"B"` — `groupby` pre-sorts group keys alphabetically, so first-seen input
order is not what ties fall back to. -/
theorem c2_counterexample :
    (get_avg_delay_by_station (some (Except.ok
        [⟨"B", Cell.num 5, "National"⟩, ⟨"A", Cell.num 5, "National"⟩]))
        "tgv-data" 10 "asc").data =
      some [⟨"A", some 5⟩, ⟨"B", some 5⟩] ∧
    (get_avg_delay_by_station (some (Except.ok
        [⟨"B", Cell.num 5, "National"⟩, ⟨"A", Cell.num 5, "National"⟩]))
        "tgv-data" 10 "asc").data ≠
      some [⟨"B", some 5⟩, ⟨"A", some 5⟩] := by
  decide

/-- C2 amended: when two or more groups have exactly equal mean delays, the
output does not preserve the order in which the groups were first
encountered in the input.  What the program does establish: `groupby`
(default `sort=True`) hands the group rows to the sort in ascending
lexicographic station-name order, one row per distinct station, and the
returned sequence is the first `limit` rows of a reordering (permutation) of
that key-sorted list; the sort's own tie order is implementation-defined
(default `kind="quicksort"`), so nothing stronger about ties is
guaranteed. -/
theorem c2_amended (rows : List Record) (t : String) (lim : ℕ) (o : String) :
    (groupbyMean (coerced (rows.filter
      (fun r => r.service == "National")))).Pairwise
        (fun x y => strLt x.gare_depart y.gare_depart = true) ∧
    ((rows.filter (fun r => r.service == "National")).isEmpty = false →
      ∃ l' : List Entry,
        List.Perm l' (groupbyMean (coerced (rows.filter
          (fun r => r.service == "National")))) ∧
        (get_avg_delay_by_station (some (Except.ok rows)) t lim o).data =
          some (l'.take lim)) := by
  refine ⟨groupbyMean_pairwise_key _, fun h => ?_⟩
  refine ⟨sort_values (ascFlag o) (groupbyMean (coerced (rows.filter
    (fun r => r.service == "National")))), sort_values_perm _ _, ?_⟩
  rw [get_avg_ok_nonempty rows t lim o h, avg_delays]

/-- Witness: instantiates `c2_amended` on the counterexample input (station
`"B"` first, then `"A"`, with equal means). -/
theorem c2_witness :
    (groupbyMean (coerced (([⟨"B", Cell.num 5, "National"⟩,
        ⟨"A", Cell.num 5, "National"⟩] : List Record).filter
          (fun r => r.service == "National")))).Pairwise
      (fun x y => strLt x.gare_depart y.gare_depart = true) ∧
    ∃ l' : List Entry,
      List.Perm l' (groupbyMean (coerced (([⟨"B", Cell.num 5, "National"⟩,
        ⟨"A", Cell.num 5, "National"⟩] : List Record).filter
          (fun r => r.service == "National")))) ∧
      (get_avg_delay_by_station (some (Except.ok
        [⟨"B", Cell.num 5, "National"⟩, ⟨"A", Cell.num 5, "National"⟩]))
        "tgv-data" 10 "asc").data = some (l'.take 10) :=
  ⟨(c2_amended [⟨"B", Cell.num 5, "National"⟩, ⟨"A", Cell.num 5, "National"⟩]
      "tgv-data" 10 "asc").1,
    (c2_amended [⟨"B", Cell.num 5, "National"⟩, ⟨"A", Cell.num 5, "National"⟩]
      "tgv-data" 10 "asc").2 (by decide)⟩

/-! ### C3 -/

/-- C3 fails on the code as stated: a station with only unparseable values
gets a `NaN` mean and is placed at the end of the output, and the adjacent
comparison `mean[i] ≤ mean[i+1]` is false when `mean[i+1]` is `NaN`. -/
theorem c3_counterexample :
    ¬ specSortedByMean true
      ((get_avg_delay_by_station (some (Except.ok
        [⟨"A", Cell.str "bad", "National"⟩, ⟨"B", Cell.num 5, "National"⟩]))
        "tgv-data" 10 "asc").data.getD []) := by
  decide

/-- C3 amended: every pair of output entries (in particular every adjacent
pair) is ordered as follows — two numeric means are in the requested
direction (non-decreasing when the lowercased order is `"asc"`,
non-increasing otherwise), and a `NaN` mean never precedes a numeric mean
(`NaN` rows are placed last). -/
theorem c3_amended (rows : List Record) (t : String) (lim : ℕ) (o : String) :
    ((get_avg_delay_by_station (some (Except.ok rows)) t lim o).data.getD
      []).Pairwise (sortedRel (ascFlag o)) := by
  cases hE : (rows.filter (fun r => r.service == "National")).isEmpty
  · rw [get_avg_ok_nonempty rows t lim o hE]
    simp only [Option.getD_some]
    rw [avg_delays]
    exact (sortValues_sorted_pairwise (ascFlag o) _).sublist (List.take_sublist _ _)
  · rw [get_avg_ok_empty rows t lim o hE]
    simp

/-! ### C4 -/

/-- C4 fails on the code: one station whose only record is unparseable gives
zero valid groups, yet the output sequence has length 1 (the `NaN` group is
counted and returned). -/
theorem c4_counterexample :
    ((get_avg_delay_by_station (some (Except.ok
        [⟨"A", Cell.str "bad", "National"⟩])) "tgv-data" 10 "asc").data.getD
      []).length = 1 ∧
    specValidGroupCount [⟨"A", Cell.str "bad", "National"⟩] = 0 ∧
    ((get_avg_delay_by_station (some (Except.ok
        [⟨"A", Cell.str "bad", "National"⟩])) "tgv-data" 10 "asc").data.getD
      []).length ≠
      min (specValidGroupCount [⟨"A", Cell.str "bad", "National"⟩]) 10 := by
  decide

/-- C4 amended: for every non-empty (service-filtered) input, the returned
sequence has length `min limit (number of distinct stations)` — counting all
distinct stations, including those with no parseable value — and the `count`
field equals that length, which is at most `limit`. -/
theorem c4_amended (rows : List Record) (t : String) (lim : ℕ) (o : String)
    (h : (rows.filter (fun r => r.service == "National")).isEmpty = false) :
    (get_avg_delay_by_station (some (Except.ok rows)) t lim o).data =
      some (avg_delays (rows.filter (fun r => r.service == "National"))
        (ascFlag o) lim) ∧
    (avg_delays (rows.filter (fun r => r.service == "National"))
        (ascFlag o) lim).length =
      min lim (((rows.filter (fun r => r.service == "National")).map
        (fun r => r.gare_depart)).toFinset.card) ∧
    (get_avg_delay_by_station (some (Except.ok rows)) t lim o).count =
      some (avg_delays (rows.filter (fun r => r.service == "National"))
        (ascFlag o) lim).length ∧
    (avg_delays (rows.filter (fun r => r.service == "National"))
        (ascFlag o) lim).length ≤ lim := by
  refine ⟨?_, avg_delays_length _ _ _, ?_, ?_⟩
  · rw [get_avg_ok_nonempty rows t lim o h]
  · rw [get_avg_ok_nonempty rows t lim o h]
  · rw [avg_delays_length]
    exact Nat.min_le_left _ _

/-- Witness: instantiates `c4_amended` on a concrete two-station input. -/
theorem c4_witness :
    (get_avg_delay_by_station (some (Except.ok
      [⟨"A", Cell.num 10, "National"⟩, ⟨"B", Cell.num 5, "National"⟩]))
      "tgv-data" 10 "asc").count =
      some (avg_delays (([⟨"A", Cell.num 10, "National"⟩,
        ⟨"B", Cell.num 5, "National"⟩] : List Record).filter
          (fun r => r.service == "National")) (ascFlag "asc") 10).length :=
  (c4_amended [⟨"A", Cell.num 10, "National"⟩, ⟨"B", Cell.num 5, "National"⟩]
    "tgv-data" 10 "asc" (by decide)).2.2.1

/-! ### C5 -/

/-- C5 holds: a record whose delay value does not parse contributes nothing
to its station's mean (prepending it leaves every group mean unchanged), and
the request still succeeds (no error field). -/
theorem c5_ok (r : Record) (rows : List Record) (k : String)
    (h : to_numeric r.retard_moyen_depart = none) :
    groupMean (coerced (r :: rows)) k = groupMean (coerced rows) k ∧
    (∀ (t : String) (lim : ℕ) (o : String),
      (get_avg_delay_by_station (some (Except.ok (r :: rows))) t lim o).error
        = none) := by
  constructor
  · simp only [coerced, List.map_cons, h]
    exact groupMean_cons_none r.gare_depart k _
  · exact fun t lim o => get_avg_error_none _ t lim o

/-- Witness: instantiates `c5_ok` on the spec's example, station `"A"`
with values `[10, "bad", 20]`: the bad record leaves the mean at 15. -/
theorem c5_witness :
    groupMean (coerced (Record.mk "A" (Cell.str "bad") "National" ::
      [⟨"A", Cell.num 10, "National"⟩, ⟨"A", Cell.num 20, "National"⟩])) "A" =
      groupMean (coerced [⟨"A", Cell.num 10, "National"⟩,
        ⟨"A", Cell.num 20, "National"⟩]) "A" ∧
    groupMean (coerced [⟨"A", Cell.num 10, "National"⟩,
      ⟨"A", Cell.num 20, "National"⟩]) "A" = some 15 :=
  ⟨(c5_ok ⟨"A", Cell.str "bad", "National"⟩
      [⟨"A", Cell.num 10, "National"⟩, ⟨"A", Cell.num 20, "National"⟩] "A"
      (by decide)).1,
    by decide⟩

/-! ### C6 -/

/-- C6 fails on the code in one respect: the empty-fetch payload is
`{"data": [], "message": ...}` — it has no `count` key at all, rather than
`count = 0`. -/
theorem c6_counterexample :
    (get_avg_delay_by_station (some (Except.ok ([] : List Record)))
      "tgv-data" 10 "asc").count ≠ some 0 ∧
    (get_avg_delay_by_station (some (Except.ok ([] : List Record)))
      "tgv-data" 10 "asc").count = none ∧
    (get_avg_delay_by_station (some (Except.ok ([] : List Record)))
      "tgv-data" 10 "asc").data = some [] ∧
    (get_avg_delay_by_station (some (Except.ok ([] : List Record)))
      "tgv-data" 10 "asc").message = some "No National service data found" := by
  decide

/-- C6 amended: when the fetched (service-filtered) record set is empty, the
result has an empty sequence and the distinguishing message
`"No National service data found"`, and is not an error (no `error` field) —
but it carries no `count` field (rather than `count = 0`). -/
theorem c6_amended (rows : List Record) (t : String) (lim : ℕ) (o : String)
    (h : (rows.filter (fun r => r.service == "National")).isEmpty = true) :
    get_avg_delay_by_station (some (Except.ok rows)) t lim o =
      { data := some [], message := some "No National service data found" } :=
  get_avg_ok_empty rows t lim o h

/-- Witness: instantiates `c6_amended` on the empty table. -/
theorem c6_witness :
    get_avg_delay_by_station (some (Except.ok ([] : List Record)))
        "tgv-data" 10 "asc" =
      { data := some [], message := some "No National service data found" } :=
  c6_amended [] "tgv-data" 10 "asc" (by decide)

/-! ### C7 -/

/-- C7 fails on the code in one respect: the accepted order tokens are
`"asc"` and `"desc"`, not `"ascending"`/`"descending"` — a request with
`order = "ascending"` is rejected by validation, while `"asc"` is
accepted. -/
theorem c7_counterexample :
    get_delays none "tgv-data" 10 "ascending" = DelaysResponse.validationError ∧
    get_delays none "tgv-data" 10 "asc" ≠ DelaysResponse.validationError := by
  decide

/-- C7 amended: the handler validates `limit ∈ [1,100]` and
`order ∈ {"asc","desc"}`; an invalid request is rejected before the
aggregation engine or any data access is touched (the rejection does not
depend on the client at all), a valid one invokes the engine; the default
`order` is `"asc"` and the default `limit` is 10. -/
theorem c7_amended :
    (∀ (client : ClientModel) (t : String) (lim : ℤ) (o : String),
      ¬ paramsValid lim o →
        get_delays client t lim o = DelaysResponse.validationError) ∧
    (∀ (client : ClientModel) (t : String) (lim : ℤ) (o : String),
      paramsValid lim o →
        get_delays client t lim o = DelaysResponse.ok
          { method := "pandas"
            table_name := t
            limit := lim
            order := o
            description := "Top " ++ toString lim ++ " " ++
              (if o = "asc" then "best (lowest delays)"
               else "worst (highest delays)") ++ " stations"
            result := get_avg_delay_by_station client t lim.toNat o }) ∧
    get_delays_default_order = "asc" ∧
    get_delays_default_limit = 10 := by
  refine ⟨?_, ?_, rfl, rfl⟩
  · intro client t lim o h
    simp only [get_delays, if_neg h]
  · intro client t lim o h
    simp only [get_delays, if_pos h]

/-- Witness: instantiates `c7_amended` — an out-of-range limit is rejected
independently of the client, and a valid request reaches the engine. -/
theorem c7_witness :
    get_delays none "tgv-data" 200 "asc" = DelaysResponse.validationError ∧
    get_delays none "tgv-data" 10 "desc" = DelaysResponse.ok
      { method := "pandas"
        table_name := "tgv-data"
        limit := 10
        order := "desc"
        description := "Top " ++ toString (10 : ℤ) ++ " " ++
          (if "desc" = "asc" then "best (lowest delays)"
           else "worst (highest delays)") ++ " stations"
        result := get_avg_delay_by_station none "tgv-data" (10 : ℤ).toNat "desc" } :=
  ⟨c7_amended.1 none "tgv-data" 200 "asc" (by decide),
    c7_amended.2.1 none "tgv-data" 10 "desc" (by decide)⟩

/-! ### C8 -/

/-- C8 holds: an uninitialized client yields the structured payload
`{"error": "Supabase client not initialized"}` whatever the parameters (in
particular independently of any store content — nothing is fetched and no
aggregation runs), and a fetch that raises `e` yields `{"error": str(e)}`;
neither case escapes as an unhandled exception (the function is total and
always returns a `Response`). -/
theorem c8_ok :
    (∀ (t : String) (lim : ℕ) (o : String),
      get_avg_delay_by_station none t lim o =
        { error := some "Supabase client not initialized" }) ∧
    (∀ (e t : String) (lim : ℕ) (o : String),
      get_avg_delay_by_station (some (Except.error e)) t lim o =
        { error := some e }) :=
  ⟨fun _ _ _ => rfl, fun _ _ _ _ => rfl⟩

/-! ### C9 -/

/-- C9 holds: the aggregation output is a pure function of the fetched
record set and the parameters — two invocations on equal inputs produce
identical results, including the order of the returned sequence. -/
theorem c9_ok (c₁ c₂ : ClientModel) (t₁ t₂ : String) (l₁ l₂ : ℕ)
    (o₁ o₂ : String) (hc : c₁ = c₂) (ht : t₁ = t₂) (hl : l₁ = l₂)
    (ho : o₁ = o₂) :
    get_avg_delay_by_station c₁ t₁ l₁ o₁ = get_avg_delay_by_station c₂ t₂ l₂ o₂ := by
  rw [hc, ht, hl, ho]

/-- Witness: instantiates `c9_ok` on a concrete invocation. -/
theorem c9_witness :
    get_avg_delay_by_station (some (Except.ok
        [⟨"A", Cell.num 1, "National"⟩])) "tgv-data" 10 "asc" =
      get_avg_delay_by_station (some (Except.ok
        [⟨"A", Cell.num 1, "National"⟩])) "tgv-data" 10 "asc" :=
  c9_ok _ _ _ _ _ _ _ _ rfl rfl rfl rfl

/-! ### C10 -/

/-- C10 holds: the sort is ascending iff the lowercased order string is
exactly `"asc"`; in particular `"ascending"` flips to descending, and no
order string is ever rejected by `get_avg_delay_by_station` (the result of a
successful fetch never has an `error` field, and its data is the pipeline
run with `ascFlag order`). -/
theorem c10_ok :
    (∀ o : String, ascFlag o = true ↔ str_lower o = "asc") ∧
    ascFlag "ascending" = false ∧
    (∀ (rows : List Record) (t : String) (lim : ℕ) (o : String),
      (get_avg_delay_by_station (some (Except.ok rows)) t lim o).error = none) ∧
    (∀ (rows : List Record) (t : String) (lim : ℕ) (o : String),
      (rows.filter (fun r => r.service == "National")).isEmpty = false →
        (get_avg_delay_by_station (some (Except.ok rows)) t lim o).data =
          some (avg_delays (rows.filter (fun r => r.service == "National"))
            (ascFlag o) lim)) := by
  refine ⟨?_, by decide, ?_, ?_⟩
  · intro o
    simp [ascFlag, beq_iff_eq]
  · exact fun rows t lim o => get_avg_error_none rows t lim o
  · intro rows t lim o h
    rw [get_avg_ok_nonempty rows t lim o h]

/-- Witness: instantiates `c10_ok` — with `order = "ASCENDING"` the
function still answers (descending), rather than rejecting. -/
theorem c10_witness :
    (get_avg_delay_by_station (some (Except.ok
        [⟨"A", Cell.num 1, "National"⟩])) "t" 5 "ASCENDING").data =
      some (avg_delays (([⟨"A", Cell.num 1, "National"⟩] : List Record).filter
        (fun r => r.service == "National")) (ascFlag "ASCENDING") 5) :=
  c10_ok.2.2.2 [⟨"A", Cell.num 1, "National"⟩] "t" 5 "ASCENDING" (by decide)
